import Mathlib

/-!
Verification development for the mordomo-edp multi-agent query router.

The Python source is shallowly embedded:
* Python dicts of JSON-like values become association lists over an
  inductive `Val` type (`Dict`), with `dget`/`dset`/`dupdate` mirroring
  `d[k]` / `d.get` / `d[k] = v` / `d.update(e)` semantics (insertion order
  preserved, new keys appended at the end).
* Python floats used as confidence scores become rationals (`ℚ`).
* Fallible Python code (statements that can raise) becomes `Except Unit`;
  a raised exception is `.error ()`.
* The external LLM calls (semantic routing, response enhancement) are
  modelled as oracle parameters, since they are out-of-scope collaborators.
-/

/-- JSON-like Python values appearing in the payload/response dicts. -/
inductive Val where
  | vstr : String → Val
  | vnum : ℚ → Val
  | vbool : Bool → Val
  | vlist : List Val → Val
  | vmap : List (String × Val) → Val
  | vnull : Val
deriving Repr

/-- A Python `dict` holding `Val`s, as an insertion-ordered association list. -/
abbrev Dict := List (String × Val)

/-- `d[k]` / `d.get(k)` lookup: Python dicts have unique keys, so the first
binding is the binding. -/
def dget (d : Dict) (k : String) : Option Val :=
  (d.find? (fun p => p.1 = k)).map (fun p => p.2)

/-- `d.get(k, default)`. -/
def dgetD (d : Dict) (k : String) (v : Val) : Val :=
  (dget d k).getD v

/-- `d[k] = v`: replace the binding in place if the key exists (keeping its
position), otherwise append the new binding at the end. -/
def dset (d : Dict) (k : String) (v : Val) : Dict :=
  match d with
  | [] => [(k, v)]
  | p :: t => if p.1 = k then (k, v) :: t else p :: dset t k v

/-- `d.update(e)`: last-write-wins merge of `e` into `d`, key by key. -/
def dupdate (d : Dict) (e : Dict) : Dict :=
  e.foldl (fun acc p => dset acc p.1 p.2) d

/-- Generic association-list lookup (used for the agent registry, whose
values are not `Val`s). -/
def dlookup {α : Type} (l : List (String × α)) (k : String) : Option α :=
  (l.find? (fun p => p.1 = k)).map (fun p => p.2)

/-- Python truthiness (`if x:`) for the embedded values. -/
def truthy : Val → Bool
  | .vstr s => !s.isEmpty
  | .vnum q => decide (q ≠ 0)
  | .vbool b => b
  | .vlist l => !l.isEmpty
  | .vmap d => !d.isEmpty
  | .vnull => false

/-- One-character-list-at-a-time starts-with test on character lists. -/
def chStarts : List Char → List Char → Bool
  | [], _ => true
  | _ :: _, [] => false
  | a :: as, b :: bs => a == b && chStarts as bs

/-- Contiguous containment of one character list in another. -/
def chSub (n : List Char) (h : List Char) : Bool :=
  match h with
  | [] => n.isEmpty
  | _ :: t => chStarts n h || chSub n t

/-- Python's `needle in haystack` substring test. -/
def strContains (needle hay : String) : Bool :=
  chSub needle.toList hay.toList

/-- Python's `s.lower()` (modelled character-wise with `Char.toLower`). -/
def lowerStr (s : String) : String :=
  String.mk (s.data.map Char.toLower)

/-- Python's `str(v)` as used when interpolating values into messages.
Exact for strings, numbers rendered via `ℚ`'s printer, composite values
rendered by a fixed placeholder (their exact rendering is never relied on
by the orchestration logic). -/
def valToStr : Val → String
  | .vstr s => s
  | .vnum q => toString q
  | .vbool b => if b then "True" else "False"
  | .vlist _ => "[list]"
  | .vmap _ => "[map]"
  | .vnull => "None"

/-! ## The Message envelope (`AgentMessage` in `agents/base_agent.py`) -/

/-- `AgentMessage`: the inter-agent message envelope.  `timestamp` is the
post-`__post_init__` value, so it is always a string. -/
structure AgentMessage where
  from_agent : String
  to_agent : String
  message_type : String
  payload : Dict
  timestamp : String
deriving Repr

/-- The dataclass constructor together with `__post_init__`: an omitted
timestamp (`none`) defaults to the creation instant `now`. -/
def AgentMessage.make (now : String) (from_agent to_agent message_type : String)
    (payload : Dict) (timestamp : Option String) : AgentMessage :=
  { from_agent := from_agent, to_agent := to_agent,
    message_type := message_type, payload := payload,
    timestamp := timestamp.getD now }

/-- `AgentMessage.to_dict`. -/
def AgentMessage.to_dict (m : AgentMessage) : Dict :=
  [("from_agent", .vstr m.from_agent),
   ("to_agent", .vstr m.to_agent),
   ("message_type", .vstr m.message_type),
   ("payload", .vmap m.payload),
   ("timestamp", .vstr m.timestamp)]

/-- Reconstructing an `AgentMessage` from a dict of its fields
(`AgentMessage(**d)`); fails if a field is missing or ill-typed. -/
def AgentMessage.of_dict (d : Dict) : Option AgentMessage :=
  match dget d "from_agent", dget d "to_agent", dget d "message_type",
        dget d "payload", dget d "timestamp" with
  | some (.vstr f), some (.vstr t), some (.vstr ty), some (.vmap p), some (.vstr ts) =>
      some { from_agent := f, to_agent := t, message_type := ty, payload := p, timestamp := ts }
  | _, _, _, _, _ => none

/-! ## BaseAgent message handling (`agents/base_agent.py`) -/

/-- An agent as seen by the message bus: its private context map
(`self.shared_context`) plus the subclass hook `_handle_request`, which may
raise and may return a response message.  The hook is abstract because
`Orchestrator.route_message` treats agents only through
`receive_message`. -/
structure BusAgent where
  ctx : Dict
  handle_request : AgentMessage → Except Unit (Option AgentMessage)

/-- `BaseAgent.receive_message`: dispatch on the message kind.  A
`"request"` goes to the subclass hook; a `"context"` merges the payload
into the private context map (`dict.update`, last-write-wins) and returns
nothing; every other kind is silently ignored. -/
def receive_message (a : BusAgent) (m : AgentMessage) :
    Except Unit (BusAgent × Option AgentMessage) :=
  if m.message_type = "request" then
    (a.handle_request m).map (fun r => (a, r))
  else if m.message_type = "context" then
    .ok ({ a with ctx := dupdate a.ctx m.payload }, none)
  else
    .ok (a, none)

/-- The per-recipient try/except wrapper used by the message bus: a raising
recipient is left unchanged (the error is logged and swallowed). -/
def try_receive (a : BusAgent) (m : AgentMessage) : BusAgent :=
  match receive_message a m with
  | .ok (a', _) => a'
  | .error _ => a

/-- `Orchestrator.route_message`: broadcast to every registered agent except
the sender when `to == "*"`; direct delivery to a known recipient;
silently drop a message to an unknown recipient.  Per-recipient errors are
caught. -/
def route_message (agents : List (String × BusAgent)) (m : AgentMessage) :
    List (String × BusAgent) :=
  if m.to_agent = "*" then
    agents.map (fun na =>
      if na.1 = m.from_agent then na else (na.1, try_receive na.2 m))
  else if agents.any (fun na => na.1 = m.to_agent) then
    agents.map (fun na =>
      if na.1 = m.to_agent then (na.1, try_receive na.2 m) else na)
  else
    agents

/-! ## Dictionary lemmas -/

lemma dget_dset_self (d : Dict) (k : String) (v : Val) :
    dget (dset d k v) k = some v := by
  induction d with
  | nil => simp [dget, dset, List.find?]
  | cons p t ih =>
    by_cases hp : p.1 = k
    · simp [dget, dset, hp, List.find?]
    · unfold dget dset
      simp only [hp, if_false]
      rw [List.find?_cons_of_neg _ (by simpa using hp)]
      exact ih

lemma dget_dset_ne (d : Dict) (k k' : String) (v : Val) (h : k' ≠ k) :
    dget (dset d k v) k' = dget d k' := by
  induction d with
  | nil => simp [dget, dset, List.find?, (Ne.symm h : k ≠ k')]
  | cons p t ih =>
    by_cases hp : p.1 = k
    · unfold dget dset
      simp only [hp, if_true]
      rw [List.find?_cons_of_neg _ (by simpa using fun hh : k = k' => h hh.symm),
          List.find?_cons_of_neg _ (by simpa using fun hh : p.1 = k' => h (hp ▸ hh).symm)]
    · unfold dget dset
      simp only [hp, if_false]
      by_cases hpk : p.1 = k'
      · rw [List.find?_cons_of_pos _ (by simpa using hpk),
            List.find?_cons_of_pos _ (by simpa using hpk)]
      · rw [List.find?_cons_of_neg _ (by simpa using hpk),
            List.find?_cons_of_neg _ (by simpa using hpk)]
        exact ih

lemma dget_dupdate_of_not_mem (d e : Dict) (k : String)
    (h : k ∉ e.map Prod.fst) : dget (dupdate d e) k = dget d k := by
  induction e generalizing d with
  | nil => rfl
  | cons p t ih =>
    simp only [List.map_cons, List.mem_cons, not_or] at h
    unfold dupdate
    show dget (t.foldl (fun acc q => dset acc q.1 q.2) (dset d p.1 p.2)) k = _
    rw [show t.foldl (fun acc q => dset acc q.1 q.2) (dset d p.1 p.2)
          = dupdate (dset d p.1 p.2) t from rfl,
        ih (dset d p.1 p.2) h.2, dget_dset_ne _ _ _ _ h.1]

lemma dget_dupdate_of_mem (d e : Dict) (k : String) (v : Val)
    (hnd : (e.map Prod.fst).Nodup) (h : dget e k = some v) :
    dget (dupdate d e) k = some v := by
  induction e generalizing d with
  | nil => simp [dget, List.find?] at h
  | cons p t ih =>
    simp only [List.map_cons, List.nodup_cons] at hnd
    unfold dupdate
    show dget (t.foldl (fun acc q => dset acc q.1 q.2) (dset d p.1 p.2)) k = _
    rw [show t.foldl (fun acc q => dset acc q.1 q.2) (dset d p.1 p.2)
          = dupdate (dset d p.1 p.2) t from rfl]
    by_cases hpk : p.1 = k
    · rw [dget_dupdate_of_not_mem _ _ _ (hpk ▸ hnd.1)]
      unfold dget at h
      rw [List.find?_cons_of_pos _ (by simpa using hpk)] at h
      simp only [Option.map_some'] at h
      rw [show dset d p.1 p.2 = dset d k p.2 from hpk ▸ rfl, dget_dset_self d k p.2, h]
    · apply ih _ hnd.2
      unfold dget at h ⊢
      rwa [List.find?_cons_of_neg _ (by simpa using hpk)] at h

/-! ## Claim C9: Message round-trip -/

/-- C9: round-trip — for every `AgentMessage` (including one whose
timestamp was filled in by default at construction), rebuilding a message
from the dict produced by `to_dict` yields the original message; all five
fields (`from_agent`, `to_agent`, `message_type`, `payload`, `timestamp`)
are preserved. -/
theorem message_roundtrip :
    (∀ m : AgentMessage, AgentMessage.of_dict m.to_dict = some m) ∧
    (∀ now f t ty p,
      AgentMessage.of_dict (AgentMessage.make now f t ty p none).to_dict =
        some (AgentMessage.make now f t ty p none)) := by
  constructor
  · intro m
    cases m
    rfl
  · intro now f t ty p
    rfl

/-! ## Claim C10: non-request, non-context messages are silently ignored -/

/-- C10: for every message whose kind is neither `"request"` nor
`"context"` (e.g. a response or a notification), `receive_message` on any
agent returns no reply and leaves the agent — in particular its private
context map — unchanged, and it does not raise. -/
theorem ignore_other_kinds (a : BusAgent) (m : AgentMessage)
    (h1 : m.message_type ≠ "request") (h2 : m.message_type ≠ "context") :
    receive_message a m = .ok (a, none) := by
  unfold receive_message
  rw [if_neg h1, if_neg h2]

/-- Witness for C10 at a concrete notification message. -/
theorem ignore_other_kinds_witness :
    receive_message ⟨[("k", .vstr "v")], fun _ => .ok none⟩
      ⟨"a", "b", "notification", [], "T"⟩ =
      .ok (⟨[("k", .vstr "v")], fun _ => .ok none⟩, none) :=
  ignore_other_kinds _ _ (by decide) (by decide)

/-! ## Claim C8: broadcast delivery and context updates -/

/-- Looking up a key in a key-preserving map over a registry with distinct
keys picks out the image of that key's entry. -/
lemma dlookup_map_keyfixed {α : Type} (l : List (String × α))
    (f : String × α → String × α) (hf : ∀ p, (f p).1 = p.1)
    (n : String) (a : α) (hnd : (l.map Prod.fst).Nodup)
    (hmem : (n, a) ∈ l) :
    dlookup (l.map f) n = some (f (n, a)).2 := by
  induction l with
  | nil => simp at hmem
  | cons p t ih =>
    simp only [List.map_cons, List.nodup_cons] at hnd
    rcases List.mem_cons.mp hmem with h | h
    · subst h
      unfold dlookup
      rw [List.map_cons, List.find?_cons_of_pos _ (by simp [hf])]
      rfl
    · have hpk : p.1 ≠ n := by
        intro hc
        exact hnd.1 (hc ▸ (List.mem_map.mpr ⟨(n, a), h, rfl⟩))
      unfold dlookup
      rw [List.map_cons, List.find?_cons_of_neg _ (by simp [hf, hpk])]
      exact ih hnd.2 h

/-- The outcome of one broadcast delivery on one recipient. -/
lemma route_message_broadcast_lookup (agents : List (String × BusAgent))
    (m : AgentMessage) (hnd : (agents.map Prod.fst).Nodup)
    (hb : m.to_agent = "*") (n : String) (a : BusAgent)
    (hmem : (n, a) ∈ agents) (hns : n ≠ m.from_agent) :
    dlookup (route_message agents m) n = some (try_receive a m) := by
  unfold route_message
  rw [if_pos hb]
  have := dlookup_map_keyfixed agents
      (fun na => if na.1 = m.from_agent then na else (na.1, try_receive na.2 m))
      (fun p => by by_cases hp : p.1 = m.from_agent <;> simp [hp])
      n a hnd hmem
  simpa [hns] using this

/-- C8: for a broadcast message (`to = "*"`), every registered agent other
than the sender receives the message — each recipient's resulting state is
exactly the outcome of its own `receive_message` (unchanged if its own
receive raised), independent of failures at other recipients — while the
sender's entry is untouched; and when the message kind is `"context"`,
each non-sender recipient's private context map afterwards is the
last-write-wins update with the payload, hence contains every key of the
payload with the payload's value. -/
theorem broadcast_delivery (agents : List (String × BusAgent))
    (m : AgentMessage) (hnd : (agents.map Prod.fst).Nodup)
    (hb : m.to_agent = "*") :
    (∀ n a, (n, a) ∈ agents → n ≠ m.from_agent →
      dlookup (route_message agents m) n = some (try_receive a m)) ∧
    (∀ a, (m.from_agent, a) ∈ agents →
      dlookup (route_message agents m) m.from_agent = some a) ∧
    (m.message_type = "context" → (m.payload.map Prod.fst).Nodup →
      ∀ n a, (n, a) ∈ agents → n ≠ m.from_agent →
        ∃ a', dlookup (route_message agents m) n = some a' ∧
          a'.ctx = dupdate a.ctx m.payload ∧
          ∀ k v, dget m.payload k = some v → dget a'.ctx k = some v) := by
  refine ⟨fun n a hmem hns => route_message_broadcast_lookup agents m hnd hb n a hmem hns,
    ?_, ?_⟩
  · intro a hmem
    unfold route_message
    rw [if_pos hb]
    have := dlookup_map_keyfixed agents
        (fun na => if na.1 = m.from_agent then na else (na.1, try_receive na.2 m))
        (fun p => by by_cases hp : p.1 = m.from_agent <;> simp [hp])
        m.from_agent a hnd hmem
    simpa using this
  · intro hctx hpnd n a hmem hns
    refine ⟨try_receive a m,
      route_message_broadcast_lookup agents m hnd hb n a hmem hns, ?_, ?_⟩
    · unfold try_receive receive_message
      rcases hreq : decide (m.message_type = "request") with _ | _
      · rw [if_neg (by simpa using hreq), if_pos hctx]
      · exact absurd hctx (by simp [of_decide_eq_true hreq])
    · intro k v hkv
      have hctxeq : (try_receive a m).ctx = dupdate a.ctx m.payload := by
        unfold try_receive receive_message
        rcases hreq : decide (m.message_type = "request") with _ | _
        · rw [if_neg (by simpa using hreq), if_pos hctx]
        · exact absurd hctx (by simp [of_decide_eq_true hreq])
      rw [hctxeq]
      exact dget_dupdate_of_mem a.ctx m.payload k v hpnd hkv

/-- Witness for C8: a two-recipient broadcast of a context update from a
third agent. -/
theorem broadcast_delivery_witness :
    (dlookup (route_message
        [("s", ⟨[], fun _ => .ok none⟩),
         ("r", ⟨[("old", .vstr "o")], fun _ => .ok none⟩)]
        ⟨"s", "*", "context", [("k", .vstr "v")], "T"⟩) "r" =
      some (try_receive ⟨[("old", .vstr "o")], fun _ => .ok none⟩
        ⟨"s", "*", "context", [("k", .vstr "v")], "T"⟩)) ∧
    (∃ a', dlookup (route_message
        [("s", ⟨[], fun _ => .ok none⟩),
         ("r", ⟨[("old", .vstr "o")], fun _ => .ok none⟩)]
        ⟨"s", "*", "context", [("k", .vstr "v")], "T"⟩) "r" = some a' ∧
      a'.ctx = dupdate [("old", .vstr "o")] [("k", .vstr "v")] ∧
      ∀ k v, dget [("k", .vstr "v")] k = some v → dget a'.ctx k = some v) := by
  have h := broadcast_delivery
    [("s", ⟨[], fun _ => .ok none⟩),
     ("r", ⟨[("old", .vstr "o")], fun _ => .ok none⟩)]
    ⟨"s", "*", "context", [("k", .vstr "v")], "T"⟩
    (by decide) rfl
  exact ⟨h.1 "r" ⟨[("old", .vstr "o")], fun _ => .ok none⟩
      (List.mem_cons_of_mem _ (List.mem_cons_self _ _)) (by decide),
    h.2.2 rfl (by decide) "r" ⟨[("old", .vstr "o")], fun _ => .ok none⟩
      (List.mem_cons_of_mem _ (List.mem_cons_self _ _)) (by decide)⟩

/-! ## The four agent variants' `can_handle` (claim C2) -/

/-- Number of keywords from a fixed wordlist occurring as substrings of a
(lower-cased) query: `sum(1 for kw in keywords if kw in query)`. -/
def countHits (kws : List String) (q : String) : Nat :=
  (kws.filter (fun kw => strContains kw q)).length

/-- `context.get("query", "").lower() if context else ""`.  A context whose
`"query"` value is not a string makes `.lower()` raise. -/
def query_of (ctx : Option Dict) : Except Unit String :=
  match ctx with
  | none => .ok ""
  | some d =>
    match dget d "query" with
    | none => .ok (lowerStr "")
    | some (.vstr s) => .ok (lowerStr s)
    | some _ => .error ()

/-- `BillingAgent.can_handle`'s keyword list. -/
def billing_keywords : List String :=
  ["fatura", "factura", "conta", "pagar", "valor", "consumo",
   "kwh", "eletricidade", "gás", "referência", "mb",
   "débito", "direto", "preço", "tarifa", "gastei", "gasto",
   "mês", "mes", "este mês", "último mês", "faturação",
   "montante", "total", "paguei", "custo", "despesa"]

/-- `BillingAgent.can_handle` (the source's local `matches` is `hits` here,
`matches` being reserved in Lean). -/
def billing_can_handle (intent : String) (ctx : Option Dict) : Except Unit ℚ :=
  match query_of ctx with
  | .error e => .error e
  | .ok query =>
    let hits := countHits billing_keywords query
    let confidence : ℚ := min ((hits : ℚ) / 2) 1
    let confidence := if 0 < hits then max confidence (4/10) else confidence
    let confidence :=
      if intent ∈ ["get_invoice", "get_consumption"] then max confidence (9/10)
      else confidence
    .ok confidence

/-- `EVAgent.can_handle`'s keyword list. -/
def ev_keywords : List String :=
  ["carro elétrico", "carro eletrico", "carregar", "bateria", "ev", "tesla",
   "kwh", "carregamento", "posto", "mobie", "wallbox",
   "carregador", "autonomia", "elétrico", "eletrico",
   "custo", "preço", "preco", "gasto", "quanto", "custa",
   "horário", "horario", "hora", "quando", "melhor",
   "veículo", "veiculo", "transporte", "automóvel", "automovel"]

/-- `EVAgent.can_handle`. -/
def ev_can_handle (intent : String) (ctx : Option Dict) : Except Unit ℚ :=
  match query_of ctx with
  | .error e => .error e
  | .ok query =>
    let hits := countHits ev_keywords query
    let confidence : ℚ := min ((hits : ℚ) / 2) 1
    let confidence := if 0 < hits then max confidence (4/10) else confidence
    let confidence :=
      if intent ∈ ["ev_charging", "carregar_carro"] then max confidence (9/10)
      else confidence
    .ok confidence

/-- `SolarAgent.can_handle`'s keyword list. -/
def solar_keywords : List String :=
  ["painel", "solar", "fotovoltaico", "pv", "produção",
   "autoconsumo", "vender", "rede", "inversor", "kwh produzidos",
   "sun", "irradiância", "auto-consumo"]

/-- `SolarAgent.can_handle` — note: no explicit `hits > 0` floor line in
the source, unlike the other three variants (the floor is vacuous anyway,
since one hit already scores `0.5`). -/
def solar_can_handle (intent : String) (ctx : Option Dict) : Except Unit ℚ :=
  match query_of ctx with
  | .error e => .error e
  | .ok query =>
    let hits := countHits solar_keywords query
    let confidence : ℚ := min ((hits : ℚ) / 2) 1
    let confidence :=
      if intent ∈ ["solar_production", "autoconsumo"] then max confidence (9/10)
      else confidence
    .ok confidence

/-- `SupportAgent.can_handle`'s keyword list. -/
def support_keywords : List String :=
  ["avaria", "problema", "não funciona", "sem luz", "falta luz",
   "técnico", "intervenção", "suporte", "ajuda técnica",
   "falha", "disjuntor", "corte", "contador", "quadro",
   "ticket", "estado", "agendar", "visita", "arranjar",
   "avariado", "queimado", "sem energia"]

/-- `SupportAgent.can_handle`. -/
def support_can_handle (intent : String) (ctx : Option Dict) : Except Unit ℚ :=
  match query_of ctx with
  | .error e => .error e
  | .ok query =>
    let hits := countHits support_keywords query
    let confidence : ℚ := min ((hits : ℚ) / 2) 1
    let confidence := if 0 < hits then max confidence (4/10) else confidence
    let confidence :=
      if intent ∈ ["report_fault", "technical_support", "check_ticket",
                   "schedule_visit"] then max confidence (9/10)
      else confidence
    .ok confidence

/-- The four concrete agent variants. -/
inductive AgentVariant where
  | billing | ev | solar | support
deriving DecidableEq, Repr

/-- Dispatch `can_handle` per variant. -/
def variant_can_handle : AgentVariant → String → Option Dict → Except Unit ℚ
  | .billing => billing_can_handle
  | .ev => ev_can_handle
  | .solar => solar_can_handle
  | .support => support_can_handle

/-- Each variant's fixed domain wordlist. -/
def variant_keywords : AgentVariant → List String
  | .billing => billing_keywords
  | .ev => ev_keywords
  | .solar => solar_keywords
  | .support => support_keywords

/-- Each variant's canonical intent labels. -/
def variant_intents : AgentVariant → List String
  | .billing => ["get_invoice", "get_consumption"]
  | .ev => ["ev_charging", "carregar_carro"]
  | .solar => ["solar_production", "autoconsumo"]
  | .support => ["report_fault", "technical_support", "check_ticket", "schedule_visit"]

lemma conf_props (hits : Nat) (P : Prop) [Decidable P] (c : ℚ)
    (hc : c = (if P then
        max (if 0 < hits then max (min ((hits : ℚ)/2) 1) (4/10)
             else min ((hits : ℚ)/2) 1) (9/10)
      else if 0 < hits then max (min ((hits : ℚ)/2) 1) (4/10)
           else min ((hits : ℚ)/2) 1)) :
    0 ≤ c ∧ c ≤ 1 ∧ (0 < hits → 4/10 ≤ c) ∧ (P → 9/10 ≤ c) ∧
      (hits = 0 → ¬P → c = 0) ∧ (¬P → c = min ((hits : ℚ)/2) 1) := by
  have hcast : 0 < hits → (1:ℚ) ≤ (hits : ℚ) := fun h => by exact_mod_cast h
  have hfloor : 0 < hits → (4:ℚ)/10 ≤ min ((hits : ℚ)/2) 1 := fun h =>
    le_min (by linarith [hcast h]) (by norm_num)
  have hmin0 : 0 ≤ min ((hits : ℚ)/2) 1 := le_min (by positivity) (by norm_num)
  have hmin1 : min ((hits : ℚ)/2) 1 ≤ 1 := min_le_right _ _
  subst hc
  split_ifs with hP hpos hpos
  · exact ⟨le_trans (by norm_num) (le_max_right _ _),
      max_le (max_le hmin1 (by norm_num)) (by norm_num),
      fun _ => le_trans (by norm_num) (le_max_right _ _),
      fun _ => le_max_right _ _,
      fun h0 _ => absurd hpos (by omega),
      fun hnP => absurd hP hnP⟩
  · exact ⟨le_trans (by norm_num) (le_max_right _ _),
      max_le hmin1 (by norm_num),
      fun h => absurd h hpos,
      fun _ => le_max_right _ _,
      fun _ hnP => absurd hP hnP,
      fun hnP => absurd hP hnP⟩
  · refine ⟨le_trans hmin0 (le_max_left _ _),
      max_le hmin1 (by norm_num),
      fun _ => le_max_right _ _,
      fun hp => absurd hp hP,
      fun h0 _ => absurd hpos (by omega),
      fun _ => max_eq_left (hfloor hpos)⟩
  · have h0 : hits = 0 := by omega
    refine ⟨hmin0, hmin1, fun h => absurd h hpos, fun hp => absurd hp hP,
      fun _ _ => ?_, fun _ => rfl⟩
    rw [h0]
    norm_num

lemma conf_props_nofloor (hits : Nat) (P : Prop) [Decidable P] (c : ℚ)
    (hc : c = (if P then max (min ((hits : ℚ)/2) 1) (9/10)
               else min ((hits : ℚ)/2) 1)) :
    0 ≤ c ∧ c ≤ 1 ∧ (0 < hits → 4/10 ≤ c) ∧ (P → 9/10 ≤ c) ∧
      (hits = 0 → ¬P → c = 0) ∧ (¬P → c = min ((hits : ℚ)/2) 1) := by
  have hcast : 0 < hits → (1:ℚ) ≤ (hits : ℚ) := fun h => by exact_mod_cast h
  have hfloor : 0 < hits → (4:ℚ)/10 ≤ min ((hits : ℚ)/2) 1 := fun h =>
    le_min (by linarith [hcast h]) (by norm_num)
  have hmin0 : 0 ≤ min ((hits : ℚ)/2) 1 := le_min (by positivity) (by norm_num)
  have hmin1 : min ((hits : ℚ)/2) 1 ≤ 1 := min_le_right _ _
  subst hc
  split_ifs with hP
  · exact ⟨le_trans hmin0 (le_max_left _ _),
      max_le hmin1 (by norm_num),
      fun h => le_trans (hfloor h) (le_max_left _ _),
      fun _ => le_max_right _ _,
      fun _ hnP => absurd hP hnP,
      fun hnP => absurd hP hnP⟩
  · refine ⟨hmin0, hmin1, fun h => hfloor h, fun hp => absurd hp hP,
      fun h0 _ => ?_, fun _ => rfl⟩
    rw [h0]
    norm_num

/-- C2: for every agent variant, intent string and context whose `"query"`
entry (if any) is a string — so that `q` is the lower-cased query text —
`can_handle` returns normally (never raises) with a value `c` such that:
`c` is a confidence in `[0, 1]`; at least `0.4` whenever at least one of
the variant's fixed domain keywords occurs as a substring of `q`; at least
`0.9` whenever the intent is one of the variant's canonical labels; equal
to `min(hits/2, 1)` when the intent is not canonical; and exactly `0`
with no keyword hit and no canonical intent. -/
theorem can_handle_contract (v : AgentVariant) (intent : String)
    (ctx : Option Dict) (q : String) (hq : query_of ctx = .ok q) :
    ∃ c : ℚ, variant_can_handle v intent ctx = .ok c ∧
      0 ≤ c ∧ c ≤ 1 ∧
      (0 < countHits (variant_keywords v) q → 4/10 ≤ c) ∧
      (intent ∈ variant_intents v → 9/10 ≤ c) ∧
      (countHits (variant_keywords v) q = 0 → intent ∉ variant_intents v → c = 0) ∧
      (intent ∉ variant_intents v →
        c = min ((countHits (variant_keywords v) q : ℚ) / 2) 1) := by
  cases v
  case billing =>
    show ∃ c, billing_can_handle intent ctx = .ok c ∧ _
    unfold billing_can_handle
    rw [hq]
    exact ⟨_, rfl, conf_props (countHits billing_keywords q)
      (intent ∈ ["get_invoice", "get_consumption"]) _ rfl⟩
  case ev =>
    show ∃ c, ev_can_handle intent ctx = .ok c ∧ _
    unfold ev_can_handle
    rw [hq]
    exact ⟨_, rfl, conf_props (countHits ev_keywords q)
      (intent ∈ ["ev_charging", "carregar_carro"]) _ rfl⟩
  case solar =>
    show ∃ c, solar_can_handle intent ctx = .ok c ∧ _
    unfold solar_can_handle
    rw [hq]
    exact ⟨_, rfl, conf_props_nofloor (countHits solar_keywords q)
      (intent ∈ ["solar_production", "autoconsumo"]) _ rfl⟩
  case support =>
    show ∃ c, support_can_handle intent ctx = .ok c ∧ _
    unfold support_can_handle
    rw [hq]
    exact ⟨_, rfl, conf_props (countHits support_keywords q)
      (intent ∈ ["report_fault", "technical_support", "check_ticket",
                 "schedule_visit"]) _ rfl⟩

/-- Witness for C2: the billing variant on a query containing the keyword
`"fatura"`, and the solar variant on an empty context with a canonical
intent. -/
theorem can_handle_contract_witness :
    (∃ c : ℚ, variant_can_handle .billing "x"
        (some [("query", .vstr "a minha fatura")]) = .ok c ∧
      0 ≤ c ∧ c ≤ 1 ∧
      (0 < countHits (variant_keywords .billing) "a minha fatura" → 4/10 ≤ c) ∧
      ("x" ∈ variant_intents .billing → 9/10 ≤ c) ∧
      (countHits (variant_keywords .billing) "a minha fatura" = 0 →
        "x" ∉ variant_intents .billing → c = 0) ∧
      ("x" ∉ variant_intents .billing →
        c = min ((countHits (variant_keywords .billing) "a minha fatura" : ℚ) / 2) 1)) ∧
    (∃ c : ℚ, variant_can_handle .solar "solar_production" none = .ok c ∧
      0 ≤ c ∧ c ≤ 1 ∧
      (0 < countHits (variant_keywords .solar) "" → 4/10 ≤ c) ∧
      ("solar_production" ∈ variant_intents .solar → 9/10 ≤ c) ∧
      (countHits (variant_keywords .solar) "" = 0 →
        "solar_production" ∉ variant_intents .solar → c = 0) ∧
      ("solar_production" ∉ variant_intents .solar →
        c = min ((countHits (variant_keywords .solar) "" : ℚ) / 2) 1)) :=
  ⟨can_handle_contract .billing "x" (some [("query", .vstr "a minha fatura")])
      "a minha fatura" (by rfl),
   can_handle_contract .solar "solar_production" none "" (by rfl)⟩

/-! ## `SemanticRouter._fallback_route` (claim C7) -/

/-- The router fallback's per-domain keyword lists, in the fixed
enumeration order of `semantic_router.py`. -/
def router_keywords : List (String × List String) :=
  [("billing_agent", ["fatura", "conta", "pagar", "valor", "consumo", "kwh", "€"]),
   ("ev_agent", ["carro", "elétrico", "carregar", "bateria", "ev", "tesla", "mobie"]),
   ("solar_agent", ["painel", "solar", "fotovoltaico", "produção", "autoconsumo"]),
   ("support_agent", ["avaria", "problema", "técnico", "suporte", "não funciona"])]

/-- `SemanticRouter._fallback_route`: scan the domains in order, keeping
the one whose keyword-hit count strictly exceeds the best so far;
confidence is `min(best/2, 1)` (or `0.0` with no hit at all). -/
def fallback_route (query : String) : String × ℚ :=
  let query_lower := lowerStr query
  let best := router_keywords.foldl
    (fun (best : String × Nat) (p : String × List String) =>
      let score := countHits p.2 query_lower
      if best.2 < score then (p.1, score) else best)
    ("none", 0)
  let confidence : ℚ := if 0 < best.2 then min ((best.2 : ℚ) / 2) 1 else 0
  (best.1, confidence)

/-- The claim's reading of the fallback: the winner is the first-seen
domain attaining the strictly highest hit count, with confidence
`min(hits/2, 1)`; all-zero hit counts yield `("none", 0.0)`. -/
def fallback_route_spec (query : String) : String × ℚ :=
  let b := countHits ["fatura", "conta", "pagar", "valor", "consumo", "kwh", "€"]
    (lowerStr query)
  let e := countHits ["carro", "elétrico", "carregar", "bateria", "ev", "tesla", "mobie"]
    (lowerStr query)
  let s := countHits ["painel", "solar", "fotovoltaico", "produção", "autoconsumo"]
    (lowerStr query)
  let u := countHits ["avaria", "problema", "técnico", "suporte", "não funciona"]
    (lowerStr query)
  if b = 0 ∧ e = 0 ∧ s = 0 ∧ u = 0 then ("none", 0)
  else if e ≤ b ∧ s ≤ b ∧ u ≤ b then ("billing_agent", min ((b : ℚ) / 2) 1)
  else if b < e ∧ s ≤ e ∧ u ≤ e then ("ev_agent", min ((e : ℚ) / 2) 1)
  else if b < s ∧ e < s ∧ u ≤ s then ("solar_agent", min ((s : ℚ) / 2) 1)
  else ("support_agent", min ((u : ℚ) / 2) 1)

lemma fallback_fold_eq (b e s u : Nat) :
    (let best :=
      (fun (best : String × Nat) (p : String × Nat) =>
        if best.2 < p.2 then (p.1, p.2) else best) |>
      (fun f => f (f (f (f ("none", 0) ("billing_agent", b)) ("ev_agent", e))
        ("solar_agent", s)) ("support_agent", u))
     (best.1, if 0 < best.2 then min ((best.2 : ℚ) / 2) 1 else (0 : ℚ))) =
    (if b = 0 ∧ e = 0 ∧ s = 0 ∧ u = 0 then ("none", (0 : ℚ))
     else if e ≤ b ∧ s ≤ b ∧ u ≤ b then ("billing_agent", min ((b : ℚ) / 2) 1)
     else if b < e ∧ s ≤ e ∧ u ≤ e then ("ev_agent", min ((e : ℚ) / 2) 1)
     else if b < s ∧ e < s ∧ u ≤ s then ("solar_agent", min ((s : ℚ) / 2) 1)
     else ("support_agent", min ((u : ℚ) / 2) 1)) := by
  dsimp only
  split_ifs <;> first
    | rfl
    | (exfalso; omega)

/-- C7: the router's keyword fallback agrees with its specification — it
returns the domain whose keyword-hit count is strictly highest with
confidence `min(hits/2, 1)`, keeps the first-seen domain on ties, and
returns exactly `("none", 0.0)` when no domain keyword occurs. -/
theorem fallback_route_matches_spec (query : String) :
    fallback_route query = fallback_route_spec query := by
  unfold fallback_route fallback_route_spec router_keywords
  dsimp only [List.foldl]
  exact fallback_fold_eq
    (countHits ["fatura", "conta", "pagar", "valor", "consumo", "kwh", "€"] (lowerStr query))
    (countHits ["carro", "elétrico", "carregar", "bateria", "ev", "tesla", "mobie"] (lowerStr query))
    (countHits ["painel", "solar", "fotovoltaico", "produção", "autoconsumo"] (lowerStr query))
    (countHits ["avaria", "problema", "técnico", "suporte", "não funciona"] (lowerStr query))

/-! ## Orchestrator agent selection (claim C1) -/

/-- An agent as the orchestrator sees it: confidence scoring, query
processing (which may raise) and inter-agent message receipt (which may
raise, and may return a response message).  The concrete behaviours stay
abstract because `Orchestrator` interacts with agents exclusively through
these three methods. -/
structure Agent where
  can_handle : String → Dict → ℚ
  process : String → Dict → Except Unit Dict
  receive : AgentMessage → Except Unit (Option AgentMessage)

/-- Stable insertion into a descending-by-confidence list: an element goes
after every earlier element with an equal-or-higher score, reproducing
Python's stable `sort(key=confidence, reverse=True)`. -/
def insertDesc (x : ℚ × (String × Agent)) :
    List (ℚ × (String × Agent)) → List (ℚ × (String × Agent))
  | [] => [x]
  | y :: ys => if y.1 ≤ x.1 then x :: y :: ys else y :: insertDesc x ys

/-- Stable descending sort by confidence
(`scored_agents.sort(key=lambda x: x[0], reverse=True)`). -/
def sortDesc (l : List (ℚ × (String × Agent))) : List (ℚ × (String × Agent)) :=
  l.foldr insertDesc []

/-- The keyword-based fallback block of `Orchestrator._select_agents`
(extracted as a named helper): score every registered agent with
`can_handle("", context)`, keep scores above `0.3`, sort descending, and
return `selected[:2]` when the top two are within `0.2`, else
`selected[:1]` (empty when nothing scored). -/
def keyword_fallback (registry : List (String × Agent)) (context : Dict) :
    List (String × Agent) :=
  let scored_agents := registry.foldl
    (fun acc (na : String × Agent) =>
      let conf := na.2.can_handle "" context
      if 3/10 < conf then acc ++ [(conf, na)] else acc)
    []
  let sorted := sortDesc scored_agents
  let selected := sorted.map (fun p => p.2)
  match sorted with
  | x :: y :: _ =>
    if x.1 - y.1 < 1/5 then selected.take 2 else selected.take 1
  | _ => if selected.isEmpty then [] else selected.take 1

/-- `Orchestrator._select_agents`: accept the semantic route when it names
a registered agent other than `"none"` with confidence above `0.3`;
otherwise fall back to keyword scoring.  `routed = none` models the
semantic router raising. -/
def select_agents (routed : Option (String × ℚ))
    (registry : List (String × Agent)) (context : Dict) :
    List (String × Agent) :=
  match routed with
  | some (agent_name, confidence) =>
    match dlookup registry agent_name with
    | some selected_agent =>
      if agent_name ≠ "none" ∧ 3/10 < confidence then [(agent_name, selected_agent)]
      else keyword_fallback registry context
    | none => keyword_fallback registry context
  | none => keyword_fallback registry context

/-- The claim's reading of the keyword fallback: all registered agents
scoring above `0.3`, sorted descending, give exactly two candidates when
the top two are within `0.2` (primary = highest, one collaborator),
exactly the top one when not, and no candidate when nobody clears
`0.3`. -/
def keyword_fallback_spec (registry : List (String × Agent)) (context : Dict) :
    List (String × Agent) :=
  match sortDesc
      ((registry.map (fun na => (na.2.can_handle "" context, na))).filter
        (fun p => 3/10 < p.1)) with
  | [] => []
  | [x] => [x.2]
  | x :: y :: _ => if x.1 - y.1 < 1/5 then [x.2, y.2] else [x.2]

/-- The claim's reading of `_select_agents`: a registered, non-`"none"`
semantic answer above `0.3` selects exactly that one agent with no
secondary; otherwise the keyword fallback decides. -/
def select_agents_spec (routed : Option (String × ℚ))
    (registry : List (String × Agent)) (context : Dict) :
    List (String × Agent) :=
  match routed with
  | some (agent_name, confidence) =>
    match dlookup registry agent_name with
    | some selected_agent =>
      if agent_name ≠ "none" ∧ 3/10 < confidence then [(agent_name, selected_agent)]
      else keyword_fallback_spec registry context
    | none => keyword_fallback_spec registry context
  | none => keyword_fallback_spec registry context

lemma scored_foldl_eq_filter_map (registry : List (String × Agent))
    (context : Dict) (acc : List (ℚ × (String × Agent))) :
    registry.foldl
      (fun acc (na : String × Agent) =>
        let conf := na.2.can_handle "" context
        if 3/10 < conf then acc ++ [(conf, na)] else acc)
      acc =
    acc ++ (registry.map (fun na => (na.2.can_handle "" context, na))).filter
      (fun p => 3/10 < p.1) := by
  induction registry generalizing acc with
  | nil => simp
  | cons na t ih =>
    simp only [List.foldl_cons, List.map_cons, List.filter_cons]
    by_cases h : (3:ℚ)/10 < na.2.can_handle "" context
    · rw [if_pos h, ih]
      simp [h, List.append_assoc]
    · rw [if_neg h, ih]
      simp [h]

lemma keyword_fallback_eq_spec (registry : List (String × Agent))
    (context : Dict) :
    keyword_fallback registry context = keyword_fallback_spec registry context := by
  unfold keyword_fallback keyword_fallback_spec
  dsimp only
  rw [scored_foldl_eq_filter_map registry context [], List.nil_append]
  cases hs : sortDesc
      ((registry.map (fun na => (na.2.can_handle "" context, na))).filter
        (fun p => 3/10 < p.1)) with
  | nil => rfl
  | cons x t =>
    cases t with
    | nil => rfl
    | cons y t2 =>
      dsimp only
      by_cases hd : x.1 - y.1 < 1/5
      · rw [if_pos hd, if_pos hd]
        rfl
      · rw [if_neg hd, if_neg hd]
        rfl

lemma insertDesc_perm (x : ℚ × (String × Agent)) (l : List (ℚ × (String × Agent))) :
    (insertDesc x l).Perm (x :: l) := by
  induction l with
  | nil => exact List.Perm.refl _
  | cons y ys ih =>
    unfold insertDesc
    by_cases h : y.1 ≤ x.1
    · rw [if_pos h]
    · rw [if_neg h]
      exact ((ih.cons y).trans (List.Perm.swap x y ys))

lemma insertDesc_sorted (x : ℚ × (String × Agent)) (l : List (ℚ × (String × Agent)))
    (h : l.Pairwise (fun a b => b.1 ≤ a.1)) :
    (insertDesc x l).Pairwise (fun a b => b.1 ≤ a.1) := by
  induction l with
  | nil => simp [insertDesc]
  | cons y ys ih =>
    rcases List.pairwise_cons.mp h with ⟨hy, hys⟩
    unfold insertDesc
    by_cases hle : y.1 ≤ x.1
    · rw [if_pos hle]
      refine List.pairwise_cons.mpr ⟨?_, h⟩
      intro z hz
      rcases List.mem_cons.mp hz with hz | hz
      · exact hz ▸ hle
      · exact le_trans (hy z hz) hle
    · rw [if_neg hle]
      refine List.pairwise_cons.mpr ⟨?_, ih hys⟩
      intro z hz
      rcases List.mem_cons.mp ((insertDesc_perm x ys).mem_iff.mp hz) with hz | hz
      · exact hz ▸ le_of_not_le hle
      · exact hy z hz

lemma sortDesc_perm (l : List (ℚ × (String × Agent))) : (sortDesc l).Perm l := by
  induction l with
  | nil => exact List.Perm.refl _
  | cons x xs ih =>
    exact (insertDesc_perm x (sortDesc xs)).trans (ih.cons x)

lemma sortDesc_sorted (l : List (ℚ × (String × Agent))) :
    (sortDesc l).Pairwise (fun a b => b.1 ≤ a.1) := by
  induction l with
  | nil => simp [sortDesc]
  | cons x xs ih => exact insertDesc_sorted x (sortDesc xs) ih

/-- C1: `_select_agents` agrees with the claim's description
(`select_agents_spec`); moreover the fallback's sort really does sort
descending — it permutes its input and is pairwise descending by
confidence, so the first kept candidate is a highest-scoring one. -/
theorem select_agents_matches_spec :
    (∀ routed registry context,
      select_agents routed registry context =
        select_agents_spec routed registry context) ∧
    (∀ l : List (ℚ × (String × Agent)),
      (sortDesc l).Perm l ∧ (sortDesc l).Pairwise (fun a b => b.1 ≤ a.1)) := by
  constructor
  · intro routed registry context
    unfold select_agents select_agents_spec
    rcases routed with _ | ⟨agent_name, confidence⟩
    · exact keyword_fallback_eq_spec registry context
    · dsimp only
      cases dlookup registry agent_name with
      | none => exact keyword_fallback_eq_spec registry context
      | some selected_agent =>
        dsimp only
        by_cases hc : agent_name ≠ "none" ∧ 3/10 < confidence
        · rw [if_pos hc, if_pos hc]
        · rw [if_neg hc, if_neg hc]
          exact keyword_fallback_eq_spec registry context
  · exact fun l => ⟨sortDesc_perm l, sortDesc_sorted l⟩

/-! ## `Orchestrator.route_query` and its helpers -/

/-- `response.get("data", {})` followed by attribute access on the result:
a missing key acts as `{}`; a non-dict value makes the subsequent `.get`
raise. -/
def getData (response : Dict) : Except Unit Dict :=
  match dget response "data" with
  | none => .ok []
  | some (.vmap d) => .ok d
  | some _ => .error ()

/-- `Orchestrator._needs_collaboration`:
`response.get("data", {}).get("needs_collaboration", False)`, used under
Python truthiness. -/
def needs_collaboration (response : Dict) : Except Unit Bool :=
  match getData response with
  | .error e => .error e
  | .ok d => .ok (truthy (dgetD d "needs_collaboration" (.vbool false)))

/-- Python iteration (`for request in x`) over an embedded value: a list
yields its elements, a dict its keys, a string its characters; anything
else raises. -/
def iter_elems : Val → Except Unit (List Val)
  | .vlist l => .ok l
  | .vmap m => .ok (m.map (fun p => Val.vstr p.1))
  | .vstr s => .ok (s.data.map (fun c => Val.vstr (String.mk [c])))
  | _ => .error ()

/-- The request loop of `Orchestrator._request_collaboration`: for each
request, look up the target agent; if registered, send it a `"request"`
message and record its response payload; a raising `receive_message` (or
an absent/None reply, or an unregistered target) leaves that entry out.
A non-dict request makes `request.get` raise; an unhashable `agent` value
makes the `in self.agents` test raise. -/
def collab_loop (registry : List (String × Agent)) (requesting_name now : String) :
    List Val → Dict → Except Unit Dict
  | [], collab_data => .ok collab_data
  | r :: rest, collab_data =>
    match r with
    | .vmap request =>
      match dgetD request "agent" .vnull with
      | .vstr target_agent =>
        match dlookup registry target_agent with
        | some target =>
          match target.receive
              (AgentMessage.make now requesting_name target_agent "request"
                [("request_type", dgetD request "request_type" .vnull)] none) with
          | .ok (some response_msg) =>
            collab_loop registry requesting_name now rest
              (dset collab_data target_agent (.vmap response_msg.payload))
          | .ok none => collab_loop registry requesting_name now rest collab_data
          | .error _ => collab_loop registry requesting_name now rest collab_data
        | none => collab_loop registry requesting_name now rest collab_data
      | .vlist _ => .error ()
      | .vmap _ => .error ()
      | _ => collab_loop registry requesting_name now rest collab_data
    | _ => .error ()

/-- `Orchestrator._request_collaboration`. -/
def request_collaboration (registry : List (String × Agent))
    (requesting_name now : String) (response : Dict) : Except Unit Dict :=
  match getData response with
  | .error e => .error e
  | .ok d =>
    match iter_elems (dgetD d "collaboration_requests" (.vlist [])) with
    | .error e => .error e
    | .ok collab_requests =>
      collab_loop registry requesting_name now collab_requests []

/-- `Orchestrator._generate_collaboration_message`: per-domain sentences
keyed on known payload shapes, joined with spaces. -/
def gen_collab_message (collab_data : Dict) : String :=
  let billing_part :=
    match dget collab_data "billing_agent" with
    | some (.vmap bill) =>
      match dget bill "annual_value" with
      | some v =>
        ["💡 Com base no seu histórico (valor anual: €" ++ valToStr v ++
         "), tem acesso a tarifas especiais."]
      | none => []
    | _ => []
  let ev_part :=
    match dget collab_data "ev_agent" with
    | some (.vmap ev) =>
      match dget ev "monthly_consumption_kwh" with
      | some v =>
        ["🔋 O seu carro elétrico representa " ++ valToStr v ++
         " kWh/mês da fatura."]
      | none => []
    | _ => []
  let solar_part :=
    match dget collab_data "solar_agent" with
    | some (.vmap solar) =>
      match dget solar "bill_reduction_percent" with
      | some v =>
        ["☀️ Os seus painéis solares estão a reduzir a fatura em " ++
         valToStr v ++ "%."]
      | none => []
    | _ => []
  String.intercalate " " (billing_part ++ ev_part ++ solar_part)

/-- The message-enhancement half of `Orchestrator._merge_responses`: when
`collab_data` is non-empty, append the generated insight paragraph to the
(required) `message` field. -/
def merge_message (merged : Dict) (collab_data : Dict) : Except Unit Dict :=
  if truthy (.vmap collab_data) then
    match dget merged "message" with
    | some mv =>
      .ok (dset merged "message"
        (.vstr (valToStr mv ++ "\n\n" ++ gen_collab_message collab_data)))
    | none => .error ()
  else .ok merged

/-- `Orchestrator._merge_responses`: store `collab_data` under
`data.collaboration` (creating an empty `data` when absent; a non-dict
`data` value makes the item assignment raise), then enhance the
message. -/
def merge_responses (primary : Dict) (collab_data : Dict) : Except Unit Dict :=
  match dget primary "data" with
  | none =>
    merge_message (dset primary "data" (.vmap (dset [] "collaboration" (.vmap collab_data))))
      collab_data
  | some (.vmap d) =>
    merge_message (dset primary "data" (.vmap (dset d "collaboration" (.vmap collab_data))))
      collab_data
  | some _ => .error ()

/-- `Orchestrator._update_context_from_response`: persist the fixed
recognized shapes (invoice amount/consumption, consumption trend) into
the user profile. -/
def update_context_from_response (response : Dict) (user_profile : Dict) :
    Except Unit Dict :=
  match getData response with
  | .error e => .error e
  | .ok data =>
    match
      ((match dget data "invoice" with
        | none => .ok user_profile
        | some (.vmap inv) =>
          .ok (dset (dset user_profile "last_invoice" (dgetD inv "amount" .vnull))
            "monthly_consumption" (dgetD inv "consumption_kwh" .vnull))
        | some _ => .error ()) : Except Unit Dict) with
    | .error e => .error e
    | .ok profile =>
      match dget data "consumption" with
      | none => .ok profile
      | some (.vmap cons) =>
        .ok (dset profile "consumption_trend" (dgetD cons "trend" .vnull))
      | some _ => .error ()

/-- Steps 4 of `route_query` (collaboration check and merge), factored so
the proofs can name the intermediate response. -/
def after_collab (registry : List (String × Agent)) (requesting_name now : String)
    (response : Dict) : Except Unit Dict :=
  match needs_collaboration response with
  | .error e => .error e
  | .ok false => .ok response
  | .ok true =>
    match request_collaboration registry requesting_name now response with
    | .error e => .error e
    | .ok collab_data => merge_responses response collab_data

/-- Step 5.5 of `route_query`: natural-language enhancement through the
LLM bridge, replacing the `message` field on success; a raising bridge is
caught, and an unavailable bridge skips the step.  `enhance` is the
external `llm_bridge.enhance_response` oracle. -/
def apply_llm (llm_available : Bool)
    (enhance : String → Dict → String → Except Unit String)
    (query : String) (agent_name : String) (response : Dict) : Dict :=
  if llm_available then
    match enhance query response agent_name with
    | .ok enhanced_message => dset response "message" (.vstr enhanced_message)
    | .error _ => response
  else response

/-- The orchestrator's shared context (`self.shared_context`). -/
structure SharedCtx where
  conversation_history : List Dict
  user_profile : Dict
  session_data : Dict
deriving Repr

/-- The envelope `route_query` returns. -/
structure RouteOutcome where
  primary_agent : String
  collaborating_agents : List Dict
  response : Dict
  context : SharedCtx
deriving Repr

/-- The `user` turn appended at the top of `route_query`. -/
def user_turn (query : String) (user_context : Dict) : Dict :=
  [("role", .vstr "user"), ("content", .vstr query),
   ("timestamp", dgetD user_context "timestamp" .vnull)]

/-- The `assistant` turn appended at the bottom of `route_query`. -/
def assistant_turn (response : Dict) (agent_name : String) (user_context : Dict) :
    Dict :=
  [("role", .vstr "assistant"),
   ("content", dgetD response "message" (.vstr "")),
   ("agent", .vstr agent_name),
   ("timestamp", dgetD user_context "timestamp" .vnull)]

/-- The fixed message of `Orchestrator._fallback_response`. -/
def fallback_message : String :=
  "Não tenho a certeza de como ajudar com isso. Posso ajudar com:\n• Faturas e consumo de energia\n• Carregamento de veículos elétricos\n• Painéis solares e autoconsumo\n\nO que gostaria de saber?"

/-- `Orchestrator._fallback_response` (the `query` argument is unused by
the source too). -/
def fallback_response (query : String) (st : SharedCtx) : RouteOutcome :=
  { primary_agent := "orchestrator",
    collaborating_agents := [],
    response :=
      [("success", .vbool true),
       ("data", .vmap []),
       ("message", .vstr fallback_message),
       ("follow_up", .vlist
         [.vstr "Ver minha fatura", .vstr "Otimizar carregamento EV",
          .vstr "Produção solar"])],
    context := st }

/-- `Orchestrator.route_query`.  External collaborators appear as
parameters: `routed` is the semantic router's answer (`none` when it
raised), `llm_available`/`enhance` the LLM bridge, `now` the clock used
for generated message timestamps.  The result pairs the returned envelope
with the post-call shared context; `.error ()` is an exception
propagating to the caller. -/
def route_query (registry : List (String × Agent))
    (routed : Option (String × ℚ)) (llm_available : Bool)
    (enhance : String → Dict → String → Except Unit String) (now : String)
    (st : SharedCtx) (query : String) (user_context : Dict) :
    Except Unit (RouteOutcome × SharedCtx) :=
  let uctx := dset user_context "query" (.vstr query)
  let st1 : SharedCtx :=
    { st with conversation_history :=
        st.conversation_history ++ [user_turn query uctx] }
  match select_agents routed registry uctx with
  | [] => .ok (fallback_response query st1, st1)
  | (primary_name, primary_agent) :: rest =>
    match primary_agent.process query uctx with
    | .error e => .error e
    | .ok primary_response =>
      let collaborating_agents := rest.filterMap (fun na =>
        match na.2.process query uctx with
        | .ok collab_response =>
          some [("agent", Val.vstr na.1),
                ("data", dgetD collab_response "data" (.vmap []))]
        | .error _ => none)
      match after_collab registry primary_name now primary_response with
      | .error e => .error e
      | .ok merged_response =>
        match update_context_from_response merged_response st1.user_profile with
        | .error e => .error e
        | .ok profile =>
          let st2 : SharedCtx := { st1 with user_profile := profile }
          let final_response :=
            apply_llm llm_available enhance query primary_name merged_response
          let st3 : SharedCtx :=
            { st2 with conversation_history :=
                st2.conversation_history ++
                  [assistant_turn final_response primary_name uctx] }
          .ok ({ primary_agent := primary_name,
                 collaborating_agents := collaborating_agents,
                 response := final_response,
                 context := st3 }, st3)

/-! ## Structural facts about `route_query` -/

/-- When the candidate list is a cons, a normal return of `route_query`
decomposes into a successful primary `process`, a successful
collaboration step, a successful profile update, and the final envelope
and context in their explicit shapes. -/
lemma route_query_cons_ok (registry : List (String × Agent))
    (routed : Option (String × ℚ)) (llm_available : Bool)
    (enhance : String → Dict → String → Except Unit String) (now : String)
    (st : SharedCtx) (query : String) (user_context : Dict)
    (pname : String) (pagent : Agent) (rest : List (String × Agent))
    (res : RouteOutcome) (st' : SharedCtx)
    (hc : select_agents routed registry (dset user_context "query" (.vstr query)) =
      (pname, pagent) :: rest)
    (h : route_query registry routed llm_available enhance now st query user_context =
      .ok (res, st')) :
    ∃ primary_response merged profile,
      pagent.process query (dset user_context "query" (.vstr query)) =
        .ok primary_response ∧
      after_collab registry pname now primary_response = .ok merged ∧
      update_context_from_response merged st.user_profile = .ok profile ∧
      res.primary_agent = pname ∧
      res.collaborating_agents = rest.filterMap (fun na =>
        match na.2.process query (dset user_context "query" (.vstr query)) with
        | .ok collab_response =>
          some [("agent", Val.vstr na.1),
                ("data", dgetD collab_response "data" (.vmap []))]
        | .error _ => none) ∧
      res.response = apply_llm llm_available enhance query pname merged ∧
      st' = { conversation_history := st.conversation_history ++
                [user_turn query (dset user_context "query" (.vstr query)),
                 assistant_turn (apply_llm llm_available enhance query pname merged)
                   pname (dset user_context "query" (.vstr query))],
              user_profile := profile,
              session_data := st.session_data } ∧
      res.context = st' := by
  unfold route_query at h
  dsimp only at h
  rw [hc] at h
  dsimp only at h
  cases hp : pagent.process query (dset user_context "query" (.vstr query)) with
  | error e => rw [hp] at h; simp at h
  | ok primary_response =>
    rw [hp] at h
    dsimp only at h
    cases ha : after_collab registry pname now primary_response with
    | error e => rw [ha] at h; simp at h
    | ok merged =>
      rw [ha] at h
      dsimp only at h
      cases hu : update_context_from_response merged st.user_profile with
      | error e => rw [hu] at h; simp at h
      | ok profile =>
        rw [hu] at h
        dsimp only at h
        rw [Except.ok.injEq, Prod.mk.injEq] at h
        obtain ⟨hres, hst⟩ := h
        have hst3 : st' =
            { conversation_history := st.conversation_history ++
                [user_turn query (dset user_context "query" (.vstr query)),
                 assistant_turn (apply_llm llm_available enhance query pname merged)
                   pname (dset user_context "query" (.vstr query))],
              user_profile := profile,
              session_data := st.session_data } := by
          rw [← hst]
          rw [show st.conversation_history ++
                [user_turn query (dset user_context "query" (.vstr query)),
                 assistant_turn (apply_llm llm_available enhance query pname merged)
                   pname (dset user_context "query" (.vstr query))] =
              (st.conversation_history ++
                [user_turn query (dset user_context "query" (.vstr query))]) ++
                [assistant_turn (apply_llm llm_available enhance query pname merged)
                   pname (dset user_context "query" (.vstr query))] by
            rw [List.append_assoc]; rfl]
        exact ⟨primary_response, merged, profile, rfl, ha, hu,
          by rw [← hres], by rw [← hres], by rw [← hres], hst3,
          by rw [← hres, ← hst]⟩

/-! ## Claim C4: the no-candidate fallback -/

/-- C4: when no candidate agent clears the selection threshold,
`route_query` returns normally with the fixed fallback envelope —
`success = True`, empty `data`, the generic cross-domain menu message and
exactly three follow-up suggestions, primary `"orchestrator"`, no
collaborators — and the only change to the shared context is the single
appended `user` turn (no assistant turn; user profile and session data
untouched). -/
theorem no_candidate_fallback (registry : List (String × Agent))
    (routed : Option (String × ℚ)) (llm_available : Bool)
    (enhance : String → Dict → String → Except Unit String) (now : String)
    (st : SharedCtx) (query : String) (user_context : Dict)
    (hc : select_agents routed registry (dset user_context "query" (.vstr query)) = []) :
    ∃ env st1,
      route_query registry routed llm_available enhance now st query user_context =
        .ok (env, st1) ∧
      st1 = { st with conversation_history := st.conversation_history ++
          [user_turn query (dset user_context "query" (.vstr query))] } ∧
      env = fallback_response query st1 ∧
      env.primary_agent = "orchestrator" ∧
      env.collaborating_agents = [] ∧
      dget env.response "success" = some (.vbool true) ∧
      dget env.response "data" = some (.vmap []) ∧
      dget env.response "message" = some (.vstr fallback_message) ∧
      (∃ fu : List Val, dget env.response "follow_up" = some (.vlist fu) ∧
        fu.length = 3) ∧
      st1.user_profile = st.user_profile ∧
      st1.session_data = st.session_data := by
  have h : route_query registry routed llm_available enhance now st query user_context =
      .ok (fallback_response query
          { st with conversation_history := st.conversation_history ++
              [user_turn query (dset user_context "query" (.vstr query))] },
        { st with conversation_history := st.conversation_history ++
            [user_turn query (dset user_context "query" (.vstr query))] }) := by
    unfold route_query
    dsimp only
    rw [hc]
  exact ⟨_, _, h, rfl, rfl, rfl, rfl, rfl, rfl, rfl, ⟨_, rfl, rfl⟩, rfl, rfl⟩

/-- Witness for C4 on an empty registry (nobody can clear the threshold)
and a keyword-free query. -/
theorem no_candidate_fallback_witness :
    ∃ env st1,
      route_query [] none false (fun _ _ _ => .error ()) "T"
          ⟨[], [], []⟩ "xyz abc random text" [] = .ok (env, st1) ∧
      st1 = (⟨[user_turn "xyz abc random text"
            (dset [] "query" (.vstr "xyz abc random text"))], [], []⟩ : SharedCtx) ∧
      env = fallback_response "xyz abc random text" st1 ∧
      env.primary_agent = "orchestrator" ∧
      env.collaborating_agents = [] ∧
      dget env.response "success" = some (.vbool true) ∧
      dget env.response "data" = some (.vmap []) ∧
      dget env.response "message" = some (.vstr fallback_message) ∧
      (∃ fu : List Val, dget env.response "follow_up" = some (.vlist fu) ∧
        fu.length = 3) := by
  obtain ⟨env, st1, h1, h2, h3, h4, h5, h6, h7, h8, h9, _, _⟩ :=
    no_candidate_fallback [] none false (fun _ _ _ => .error ()) "T"
      ⟨[], [], []⟩ "xyz abc random text" [] (by rfl)
  exact ⟨env, st1, h1, h2, h3, h4, h5, h6, h7, h8, h9⟩

/-! ## Claim C6: exactly two history appends on the main path -/

/-- C6: whenever `route_query` has a non-empty candidate list and returns
normally, the conversation history afterwards is exactly the old history
with two new entries appended — a `user` turn first (carrying the query)
and an `assistant` turn last — so no pre-existing entry is modified or
removed. -/
theorem history_two_appends (registry : List (String × Agent))
    (routed : Option (String × ℚ)) (llm_available : Bool)
    (enhance : String → Dict → String → Except Unit String) (now : String)
    (st : SharedCtx) (query : String) (user_context : Dict)
    (pname : String) (pagent : Agent) (rest : List (String × Agent))
    (res : RouteOutcome) (st' : SharedCtx)
    (hc : select_agents routed registry (dset user_context "query" (.vstr query)) =
      (pname, pagent) :: rest)
    (h : route_query registry routed llm_available enhance now st query user_context =
      .ok (res, st')) :
    ∃ a_turn,
      st'.conversation_history = st.conversation_history ++
        [user_turn query (dset user_context "query" (.vstr query)), a_turn] ∧
      dget (user_turn query (dset user_context "query" (.vstr query))) "role" =
        some (.vstr "user") ∧
      dget (user_turn query (dset user_context "query" (.vstr query))) "content" =
        some (.vstr query) ∧
      dget a_turn "role" = some (.vstr "assistant") := by
  obtain ⟨primary_response, merged, profile, _, _, _, _, _, _, hst3, _⟩ :=
    route_query_cons_ok registry routed llm_available enhance now st query
      user_context pname pagent rest res st' hc h
  refine ⟨assistant_turn (apply_llm llm_available enhance query pname merged)
      pname (dset user_context "query" (.vstr query)), ?_, rfl, rfl, rfl⟩
  rw [hst3]

/-- Concrete scenario agent for claim C6: always-confident, returning a
fixed message, replying to nothing. -/
def w6_agent : Agent :=
  ⟨fun _ _ => 1, fun _ _ => .ok [("message", .vstr "ola")], fun _ => .ok none⟩

/-- Concrete shared context with one pre-existing history entry. -/
def w6_st : SharedCtx :=
  ⟨[[("role", .vstr "user"), ("content", .vstr "old")]], [], []⟩

/-- Witness for C6: a one-agent registry routed semantically; the prior
history entry survives untouched ahead of the two new turns. -/
theorem history_two_appends_witness :
    ∃ res st' a_turn,
      route_query [("billing_agent", w6_agent)] (some ("billing_agent", 1)) false
          (fun _ _ _ => .error ()) "T" w6_st "q" [] = .ok (res, st') ∧
      st'.conversation_history = w6_st.conversation_history ++
        [user_turn "q" (dset [] "query" (.vstr "q")), a_turn] ∧
      dget (user_turn "q" (dset [] "query" (.vstr "q"))) "role" =
        some (.vstr "user") ∧
      dget a_turn "role" = some (.vstr "assistant") := by
  obtain ⟨res, st', h⟩ :
      ∃ res st', route_query [("billing_agent", w6_agent)]
        (some ("billing_agent", 1)) false (fun _ _ _ => .error ()) "T"
        w6_st "q" [] = .ok (res, st') :=
    ⟨_, _, by with_unfolding_all rfl⟩
  obtain ⟨a_turn, h1, h2, _, h4⟩ :=
    history_two_appends [("billing_agent", w6_agent)] (some ("billing_agent", 1))
      false (fun _ _ _ => .error ()) "T" w6_st "q" [] "billing_agent" w6_agent []
      res st' (by with_unfolding_all rfl) h
  exact ⟨res, st', a_turn, h, h1, h2, h4⟩

/-! ## Claim C3: the assistant turn and LLM enhancement -/

/-- Concrete scenario agent for claim C3: its `process` returns the raw
message `"RAW"`. -/
def c3_agent : Agent :=
  ⟨fun _ _ => 1, fun _ _ => .ok [("message", .vstr "RAW")], fun _ => .ok none⟩

/-- Counterexample to C3: with the LLM bridge available and returning
`"ENHANCED"`, the assistant turn appended to the history records
`"ENHANCED"`, not the primary response's pre-enhancement text `"RAW"`
(see `c3_agent`), and the returned response's `message` was already
replaced inside `route_query` — the enhancement is performed by
`route_query` itself, not left to the caller. -/
theorem assistant_history_prellm_cex :
    (route_query [("billing_agent", c3_agent)] (some ("billing_agent", 1)) true
        (fun _ _ _ => .ok "ENHANCED") "T" ⟨[], [], []⟩ "q" []).map
      (fun r => (r.2.conversation_history.map (fun turn => dget turn "content"),
                 dget r.1.response "message"))
      = .ok ([some (.vstr "q"), some (.vstr "ENHANCED")],
             some (.vstr "ENHANCED")) ∧
    (.vstr "ENHANCED" : Val) ≠ .vstr "RAW" := by
  exact ⟨by with_unfolding_all rfl, by simp⟩

/-- C3 as amended: when the LLM bridge is available and its enhancement
call succeeds (here: always returns `t`), `route_query` itself replaces
the response's `message` with the enhanced text before appending the
assistant turn, so both the returned response and the recorded assistant
turn carry the post-enhancement message. -/
theorem assistant_history_postllm (registry : List (String × Agent))
    (routed : Option (String × ℚ))
    (enhance : String → Dict → String → Except Unit String) (now : String)
    (st : SharedCtx) (query : String) (user_context : Dict)
    (pname : String) (pagent : Agent) (rest : List (String × Agent))
    (res : RouteOutcome) (st' : SharedCtx) (t : String)
    (henh : ∀ a b c, enhance a b c = .ok t)
    (hc : select_agents routed registry (dset user_context "query" (.vstr query)) =
      (pname, pagent) :: rest)
    (h : route_query registry routed true enhance now st query user_context =
      .ok (res, st')) :
    dget res.response "message" = some (.vstr t) ∧
    ∃ a_turn,
      st'.conversation_history.getLast? = some a_turn ∧
      dget a_turn "role" = some (.vstr "assistant") ∧
      dget a_turn "content" = some (.vstr t) := by
  obtain ⟨primary_response, merged, profile, _, _, _, _, _, hresp, hst3, _⟩ :=
    route_query_cons_ok registry routed true enhance now st query
      user_context pname pagent rest res st' hc h
  have happ : apply_llm true enhance query pname merged =
      dset merged "message" (.vstr t) := by
    unfold apply_llm
    rw [if_pos rfl, henh]
  have hmsg : dget res.response "message" = some (.vstr t) := by
    rw [hresp, happ, dget_dset_self]
  refine ⟨hmsg, assistant_turn (apply_llm true enhance query pname merged)
    pname (dset user_context "query" (.vstr query)), ?_, rfl, ?_⟩
  · rw [hst3]
    show (st.conversation_history ++ [_, _]).getLast? = _
    rw [show st.conversation_history ++
          [user_turn query (dset user_context "query" (.vstr query)),
           assistant_turn (apply_llm true enhance query pname merged)
             pname (dset user_context "query" (.vstr query))] =
        (st.conversation_history ++
          [user_turn query (dset user_context "query" (.vstr query))]) ++
          [assistant_turn (apply_llm true enhance query pname merged)
             pname (dset user_context "query" (.vstr query))] by
      rw [List.append_assoc]; rfl]
    rw [List.getLast?_concat]
  · show some (dgetD (apply_llm true enhance query pname merged) "message"
      (.vstr "")) = some (.vstr t)
    rw [happ]
    unfold dgetD
    rw [dget_dset_self]
    rfl

/-- Witness for the amended C3 at the `c3_agent` scenario. -/
theorem assistant_history_postllm_witness :
    ∃ res st',
      route_query [("billing_agent", c3_agent)] (some ("billing_agent", 1)) true
        (fun _ _ _ => .ok "ENHANCED") "T" ⟨[], [], []⟩ "q" [] = .ok (res, st') ∧
      dget res.response "message" = some (.vstr "ENHANCED") ∧
      ∃ a_turn,
        st'.conversation_history.getLast? = some a_turn ∧
        dget a_turn "role" = some (.vstr "assistant") ∧
        dget a_turn "content" = some (.vstr "ENHANCED") := by
  obtain ⟨res, st', h⟩ :
      ∃ res st', route_query [("billing_agent", c3_agent)]
        (some ("billing_agent", 1)) true (fun _ _ _ => .ok "ENHANCED") "T"
        ⟨[], [], []⟩ "q" [] = .ok (res, st') :=
    ⟨_, _, by with_unfolding_all rfl⟩
  obtain ⟨h1, h2⟩ :=
    assistant_history_postllm [("billing_agent", c3_agent)]
      (some ("billing_agent", 1)) (fun _ _ _ => .ok "ENHANCED") "T"
      ⟨[], [], []⟩ "q" [] "billing_agent" c3_agent [] res st' "ENHANCED"
      (fun _ _ _ => rfl) (by with_unfolding_all rfl) h
  exact ⟨res, st', h, h1, h2⟩

/-! ## Claim C5: exception handling in `route_query` -/

/-- Well-formedness of a single collaboration request as Python's loop
body requires it: a dict whose `agent` value (if any) is hashable
(not a list or a dict). -/
def wf_request (r : Val) : Bool :=
  match r with
  | .vmap request =>
    match dget request "agent" with
    | some (.vlist _) => false
    | some (.vmap _) => false
    | _ => true
  | _ => false

/-- Well-formedness of a response's `collaboration_requests` shape (the
shape every repository agent produces): data is a dict (or absent) and
the requests are a list of well-formed request dicts (or absent). -/
def wf_requests (response : Dict) : Bool :=
  match dget response "data" with
  | none => true
  | some (.vmap d) =>
    (match dget d "collaboration_requests" with
     | none => true
     | some (.vlist l) => l.all wf_request
     | some _ => false)
  | some _ => false

lemma keys_nodup_mem_unique {α : Type} (l : List (String × α))
    (hnd : (l.map Prod.fst).Nodup) (k : String) (x y : α)
    (hx : (k, x) ∈ l) (hy : (k, y) ∈ l) : x = y := by
  induction l with
  | nil => simp at hx
  | cons p t ih =>
    simp only [List.map_cons, List.nodup_cons] at hnd
    rcases List.mem_cons.mp hx with hx1 | hx1 <;>
      rcases List.mem_cons.mp hy with hy1 | hy1
    · rw [← hx1] at hy1
      exact (Prod.mk.injEq _ _ _ _ ▸ hy1.symm).2
    · exact absurd (List.mem_map.mpr ⟨(k, y), hy1, by rw [← hx1]⟩) hnd.1
    · exact absurd (List.mem_map.mpr ⟨(k, x), hx1, by rw [← hy1]⟩) hnd.1
    · exact ih hnd.2 hx1 hy1

/-- The collaboration loop succeeds on well-formed requests, and a target
whose `receive_message` always raises contributes nothing to the
accumulated collaboration data. -/
lemma collab_loop_spec (registry : List (String × Agent)) (pname now : String)
    (l : List Val) (acc : Dict) (hwf : l.all wf_request = true) :
    ∃ cd, collab_loop registry pname now l acc = .ok cd ∧
      ∀ t ta, dlookup registry t = some ta →
        (∀ m, ta.receive m = .error ()) → dget cd t = dget acc t := by
  induction l generalizing acc with
  | nil => exact ⟨acc, rfl, fun _ _ _ _ => rfl⟩
  | cons r rest ih =>
    simp only [List.all_cons, Bool.and_eq_true] at hwf
    obtain ⟨hr, hrest⟩ := hwf
    cases r with
    | vstr s => simp [wf_request] at hr
    | vnum q => simp [wf_request] at hr
    | vbool b => simp [wf_request] at hr
    | vlist lv => simp [wf_request] at hr
    | vnull => simp [wf_request] at hr
    | vmap request =>
      show ∃ cd,
        (match dgetD request "agent" .vnull with
         | .vstr target_agent =>
           match dlookup registry target_agent with
           | some target =>
             match target.receive
                 (AgentMessage.make now pname target_agent "request"
                   [("request_type", dgetD request "request_type" .vnull)] none) with
             | .ok (some response_msg) =>
               collab_loop registry pname now rest
                 (dset acc target_agent (.vmap response_msg.payload))
             | .ok none => collab_loop registry pname now rest acc
             | .error _ => collab_loop registry pname now rest acc
           | none => collab_loop registry pname now rest acc
         | .vlist _ => .error ()
         | .vmap _ => .error ()
         | _ => collab_loop registry pname now rest acc) = .ok cd ∧ _
      cases hag : dgetD request "agent" .vnull with
      | vstr target_agent =>
        dsimp only
        cases hl : dlookup registry target_agent with
        | some target =>
          dsimp only
          cases hrec : target.receive
              (AgentMessage.make now pname target_agent "request"
                [("request_type", dgetD request "request_type" .vnull)] none) with
          | ok om =>
            cases om with
            | some response_msg =>
              dsimp only
              obtain ⟨cd, hcd, hprop⟩ :=
                ih (dset acc target_agent (.vmap response_msg.payload)) hrest
              refine ⟨cd, hcd, fun t ta hta herr => ?_⟩
              rw [hprop t ta hta herr]
              have hne : t ≠ target_agent := by
                intro he
                rw [he] at hta
                rw [hta, Option.some.injEq] at hl
                have := herr (AgentMessage.make now pname target_agent "request"
                  [("request_type", dgetD request "request_type" .vnull)] none)
                rw [hl] at this
                rw [this] at hrec
                exact Except.noConfusion hrec
              rw [dget_dset_ne _ _ _ _ hne]
            | none =>
              dsimp only
              obtain ⟨cd, hcd, hprop⟩ := ih acc hrest
              exact ⟨cd, hcd, hprop⟩
          | error e =>
            dsimp only
            obtain ⟨cd, hcd, hprop⟩ := ih acc hrest
            exact ⟨cd, hcd, hprop⟩
        | none =>
          dsimp only
          obtain ⟨cd, hcd, hprop⟩ := ih acc hrest
          exact ⟨cd, hcd, hprop⟩
      | vlist lv =>
        exfalso
        unfold dgetD at hag
        cases hd : dget request "agent" with
        | none => rw [hd] at hag; simp at hag
        | some v =>
          rw [hd] at hag
          simp only [Option.getD_some] at hag
          rw [hag] at hd
          simp [wf_request, hd] at hr
      | vmap m2 =>
        exfalso
        unfold dgetD at hag
        cases hd : dget request "agent" with
        | none => rw [hd] at hag; simp at hag
        | some v =>
          rw [hd] at hag
          simp only [Option.getD_some] at hag
          rw [hag] at hd
          simp [wf_request, hd] at hr
      | vnum q =>
        dsimp only
        obtain ⟨cd, hcd, hprop⟩ := ih acc hrest
        exact ⟨cd, hcd, hprop⟩
      | vbool b =>
        dsimp only
        obtain ⟨cd, hcd, hprop⟩ := ih acc hrest
        exact ⟨cd, hcd, hprop⟩
      | vnull =>
        dsimp only
        obtain ⟨cd, hcd, hprop⟩ := ih acc hrest
        exact ⟨cd, hcd, hprop⟩

/-- C5: exception handling in `route_query` — (1) an exception in the
primary agent's `process` propagates out of `route_query`; (2) a
secondary candidate's failing `process` is caught: the collaborator list
consists exactly of the successful secondaries, so the failing agent is
simply omitted; (3) on well-formed collaboration requests,
`_request_collaboration` returns normally even when a target's
`receive_message` always raises, and that target's entry is simply
missing from the collaboration data map. -/
theorem agent_failure_handling :
    (∀ (registry : List (String × Agent)) (routed : Option (String × ℚ))
        (llm_available : Bool)
        (enhance : String → Dict → String → Except Unit String)
        (now : String) (st : SharedCtx) (query : String) (user_context : Dict)
        (pname : String) (pagent : Agent) (rest : List (String × Agent)),
      select_agents routed registry (dset user_context "query" (.vstr query)) =
        (pname, pagent) :: rest →
      pagent.process query (dset user_context "query" (.vstr query)) = .error () →
      route_query registry routed llm_available enhance now st query user_context =
        .error ()) ∧
    (∀ (registry : List (String × Agent)) (routed : Option (String × ℚ))
        (llm_available : Bool)
        (enhance : String → Dict → String → Except Unit String)
        (now : String) (st : SharedCtx) (query : String) (user_context : Dict)
        (pname : String) (pagent : Agent) (rest : List (String × Agent))
        (res : RouteOutcome) (st' : SharedCtx),
      select_agents routed registry (dset user_context "query" (.vstr query)) =
        (pname, pagent) :: rest →
      route_query registry routed llm_available enhance now st query user_context =
        .ok (res, st') →
      res.collaborating_agents = rest.filterMap (fun na =>
        match na.2.process query (dset user_context "query" (.vstr query)) with
        | .ok collab_response =>
          some [("agent", Val.vstr na.1),
                ("data", dgetD collab_response "data" (.vmap []))]
        | .error _ => none) ∧
      (∀ n a, (rest.map Prod.fst).Nodup → (n, a) ∈ rest →
        a.process query (dset user_context "query" (.vstr query)) = .error () →
        ∀ e ∈ res.collaborating_agents, dget e "agent" ≠ some (.vstr n))) ∧
    (∀ (registry : List (String × Agent)) (pname now : String) (response : Dict),
      wf_requests response = true →
      ∃ cd, request_collaboration registry pname now response = .ok cd ∧
        ∀ t ta, dlookup registry t = some ta →
          (∀ m, ta.receive m = .error ()) → dget cd t = none) := by
  refine ⟨?part1, ?part2, ?part3⟩
  case part1 =>
    intro registry routed llm_available enhance now st query user_context
      pname pagent rest hc hp
    unfold route_query
    dsimp only
    rw [hc]
    dsimp only
    rw [hp]
  case part2 =>
    intro registry routed llm_available enhance now st query user_context
      pname pagent rest res st' hc h
    obtain ⟨primary_response, merged, profile, _, _, _, _, hcoll, _, _, _⟩ :=
      route_query_cons_ok registry routed llm_available enhance now st query
        user_context pname pagent rest res st' hc h
    refine ⟨hcoll, fun n a hnd hmem hproc e he heq => ?_⟩
    rw [hcoll] at he
    obtain ⟨na, hna, hf⟩ := List.mem_filterMap.mp he
    cases hproc2 : na.2.process query (dset user_context "query" (.vstr query)) with
    | error e2 =>
      rw [hproc2] at hf
      simp at hf
    | ok collab_response =>
      rw [hproc2] at hf
      dsimp only at hf
      rw [Option.some.injEq] at hf
      rw [← hf] at heq
      have hn : na.1 = n := by
        have : dget [("agent", Val.vstr na.1),
            ("data", dgetD collab_response "data" (.vmap []))] "agent" =
            some (.vstr na.1) := rfl
        rw [this, Option.some.injEq] at heq
        exact Val.vstr.inj heq
      have hmem2 : (n, na.2) ∈ rest := by
        rw [← hn]
        exact (Prod.mk.eta ▸ hna)
      have : na.2 = a := keys_nodup_mem_unique rest hnd n na.2 a hmem2 hmem
      rw [this, hproc] at hproc2
      exact Except.noConfusion hproc2
  case part3 =>
    intro registry pname now response hwf
    unfold wf_requests at hwf
    unfold request_collaboration getData
    cases hd : dget response "data" with
    | none =>
      dsimp only
      obtain ⟨cd, hcd, hprop⟩ := collab_loop_spec registry pname now [] [] rfl
      exact ⟨cd, hcd, fun t ta hta herr => (hprop t ta hta herr).trans rfl⟩
    | some v =>
      rw [hd] at hwf
      cases v with
      | vmap d =>
        dsimp only
        dsimp only at hwf
        cases hcr : dget d "collaboration_requests" with
        | none =>
          have hdef : dgetD d "collaboration_requests" (.vlist []) = .vlist [] := by
            unfold dgetD
            rw [hcr]
            rfl
          rw [hdef]
          obtain ⟨cd, hcd, hprop⟩ := collab_loop_spec registry pname now [] [] rfl
          exact ⟨cd, hcd, fun t ta hta herr => (hprop t ta hta herr).trans rfl⟩
        | some v2 =>
          rw [hcr] at hwf
          cases v2 with
          | vlist l =>
            have hdef : dgetD d "collaboration_requests" (.vlist []) = .vlist l := by
              unfold dgetD
              rw [hcr]
              rfl
            rw [hdef]
            obtain ⟨cd, hcd, hprop⟩ := collab_loop_spec registry pname now l [] hwf
            exact ⟨cd, hcd, fun t ta hta herr => (hprop t ta hta herr).trans rfl⟩
          | vstr s2 => simp at hwf
          | vnum q2 => simp at hwf
          | vbool b2 => simp at hwf
          | vmap m2 => simp at hwf
          | vnull => simp at hwf
      | vstr s2 => simp at hwf
      | vnum q2 => simp at hwf
      | vbool b2 => simp at hwf
      | vlist l2 => simp at hwf
      | vnull => simp at hwf

/-- Concrete C5 agents: a failing primary, two fallback candidates within
the tie window (the second one failing), and a collaboration target whose
`receive_message` always raises. -/
def w5_fail : Agent :=
  ⟨fun _ _ => 1, fun _ _ => .error (), fun _ => .ok none⟩

def w5_agent_a : Agent :=
  ⟨fun _ _ => 1/2, fun _ _ => .ok [("message", .vstr "ok")], fun _ => .ok none⟩

def w5_agent_b : Agent :=
  ⟨fun _ _ => 9/20, fun _ _ => .error (), fun _ => .ok none⟩

def w5_recv_fail : Agent :=
  ⟨fun _ _ => 0, fun _ _ => .ok [], fun _ => .error ()⟩

def w5_response : Dict :=
  [("data", .vmap
    [("collaboration_requests", .vlist
      [.vmap [("agent", .vstr "t"), ("request_type", .vstr "x")]])])]

/-- Witness for C5: the three failure modes at concrete inputs — a raised
primary propagates, a raised secondary is omitted from the collaborator
list, a raised collaboration `receive_message` leaves no entry in the
collaboration data. -/
theorem agent_failure_handling_witness :
    (route_query [("p", w5_fail)] (some ("p", 1)) false
        (fun _ _ _ => .error ()) "T" ⟨[], [], []⟩ "q" [] = .error ()) ∧
    (∃ res st',
      route_query [("a", w5_agent_a), ("b", w5_agent_b)] none false
        (fun _ _ _ => .error ()) "T" ⟨[], [], []⟩ "q" [] = .ok (res, st') ∧
      res.collaborating_agents = [("b", w5_agent_b)].filterMap (fun na =>
        match na.2.process "q" (dset [] "query" (.vstr "q")) with
        | .ok collab_response =>
          some [("agent", Val.vstr na.1),
                ("data", dgetD collab_response "data" (.vmap []))]
        | .error _ => none) ∧
      (∀ e ∈ res.collaborating_agents, dget e "agent" ≠ some (.vstr "b"))) ∧
    (∃ cd, request_collaboration [("t", w5_recv_fail)] "p" "T" w5_response =
        .ok cd ∧ dget cd "t" = none) := by
  refine ⟨?_, ?_, ?_⟩
  · exact agent_failure_handling.1 [("p", w5_fail)] (some ("p", 1)) false
      (fun _ _ _ => .error ()) "T" ⟨[], [], []⟩ "q" [] "p" w5_fail []
      (by with_unfolding_all rfl) rfl
  · obtain ⟨res, st', h⟩ :
        ∃ res st', route_query [("a", w5_agent_a), ("b", w5_agent_b)] none false
          (fun _ _ _ => .error ()) "T" ⟨[], [], []⟩ "q" [] = .ok (res, st') :=
      ⟨_, _, by with_unfolding_all rfl⟩
    obtain ⟨h1, h2⟩ :=
      (agent_failure_handling.2.1) [("a", w5_agent_a), ("b", w5_agent_b)] none
        false (fun _ _ _ => .error ()) "T" ⟨[], [], []⟩ "q" [] "a" w5_agent_a
        [("b", w5_agent_b)] res st' (by with_unfolding_all rfl) h
    exact ⟨res, st', h, h1,
      h2 "b" w5_agent_b (by decide) (List.mem_cons_self _ _) rfl⟩
  · obtain ⟨cd, hcd, hmiss⟩ :=
      agent_failure_handling.2.2 [("t", w5_recv_fail)] "p" "T" w5_response rfl
    exact ⟨cd, hcd, hmiss "t" w5_recv_fail rfl (fun _ => rfl)⟩
